import Mathlib

/-!
Shallow embedding of the minilzo Rust wrapper (`src/lib.rs`).

The wrapper exposes `compress` and `decompress`, thin safe-call boundaries
around two native codec entry points (`lzo1x_1_compress`,
`lzo1x_decompress_safe`) declared `extern "C"` and not present in the
repository sources. We embed the wrapper faithfully, parameterised over the
native entry point (modelled as a pure function on buffer contents), and
separately give a model of the native codec built from the specification's
contract, used for the claims that depend on native behaviour.

Bytes are modelled as `Nat`; buffers as `List Nat`. The platform word size
(`std::mem::size_of::<usize>()`) is a parameter `wordSize`.
-/

/-- The status enumeration `LzoError` from `src/lib.rs`, a `repr(i32)` C-like
enum with explicit discriminants. -/
inductive LzoError where
  | Ok
  | Error
  | OutOfMemory
  | NotCompressible
  | InputOverrun
  | OutputOverrun
  | LookbehindOverrun
  | EofNotFound
  | InputNotConsumed
  | NotYetImplemented
  | InvalidArgument
  | InvalidAlignment
  | OutputNotConsumed
  | InternalError
  deriving DecidableEq

/-- The explicit `repr(i32)` discriminant of each variant, as written in the
source (`Ok = 0, Error = -1, ..., OutputNotConsumed = -12, InternalError = -99`). -/
def LzoError.toStatus : LzoError → Int
  | .Ok => 0
  | .Error => -1
  | .OutOfMemory => -2
  | .NotCompressible => -3
  | .InputOverrun => -4
  | .OutputOverrun => -5
  | .LookbehindOverrun => -6
  | .EofNotFound => -7
  | .InputNotConsumed => -8
  | .NotYetImplemented => -9
  | .InvalidArgument => -10
  | .InvalidAlignment => -11
  | .OutputNotConsumed => -12
  | .InternalError => -99

/-- Reading a native `i32` status as the `repr(i32)` enum at the FFI boundary
(the extern fns are declared to return `LzoError` directly). The read is
defined exactly when the integer is one of the declared discriminants;
any other value is not a valid `LzoError` bit pattern (undefined behaviour
in Rust), modelled as `none`. There is no match with a default arm in the
source. -/
def statusToLzoError (s : Int) : Option LzoError :=
  if s = 0 then some .Ok
  else if s = -1 then some .Error
  else if s = -2 then some .OutOfMemory
  else if s = -3 then some .NotCompressible
  else if s = -4 then some .InputOverrun
  else if s = -5 then some .OutputOverrun
  else if s = -6 then some .LookbehindOverrun
  else if s = -7 then some .EofNotFound
  else if s = -8 then some .InputNotConsumed
  else if s = -9 then some .NotYetImplemented
  else if s = -10 then some .InvalidArgument
  else if s = -11 then some .InvalidAlignment
  else if s = -12 then some .OutputNotConsumed
  else if s = -99 then some .InternalError
  else none

/-- The comparison produced by `#[derive(PartialOrd, Ord)]` on a C-like enum:
Rust's derived order compares the discriminant values, here the explicit
`repr(i32)` ones. -/
def lzoLe (a b : LzoError) : Bool := a.toStatus ≤ b.toStatus

/-- Strict version of the derived order (`<` of `#[derive(PartialOrd, Ord)]`). -/
def lzoLt (a b : LzoError) : Bool := a.toStatus < b.toStatus

/-- The fixed description string of each variant, from
`impl std::fmt::Display for LzoError` in `src/lib.rs`. -/
def lzoDisplay : LzoError → String
  | .Ok => "ok"
  | .Error => "error"
  | .OutOfMemory => "out of memory"
  | .NotCompressible => "not compressible"
  | .InputOverrun => "input overrun"
  | .OutputOverrun => "output overrun"
  | .LookbehindOverrun => "lookbehind overrun"
  | .EofNotFound => "EOF not found"
  | .InputNotConsumed => "input not consumed"
  | .NotYetImplemented => "not yet implemented"
  | .InvalidArgument => "invalid argument"
  | .InvalidAlignment => "invalid alignment"
  | .OutputNotConsumed => "output not consumed"
  | .InternalError => "internal error"

/-- A string is lowercase when it contains no uppercase character. -/
def isLowercase (s : String) : Bool := s.data.all fun c => !c.isUpper

/-- The constant `LZO1X_1_MEM_COMPRESS = 16384 * std::mem::size_of::<usize>()`
from `src/lib.rs`, parameterised by the platform word size in bytes. -/
def LZO1X_1_MEM_COMPRESS (wordSize : Nat) : Nat := 16384 * wordSize

/-- The buffer-size formula `output_buffer_size` from `src/lib.rs`:
`input_size + (input_size / 16) + 64 + 3` with truncating division. -/
def output_buffer_size (input_size : Nat) : Nat :=
  input_size + (input_size / 16) + 64 + 3

/-- Semantics of Rust's `Vec::resize(n, 0)`: truncate when shrinking, pad with
zeros when growing. -/
def listResize (l : List Nat) (n : Nat) : List Nat :=
  if n ≤ l.length then l.take n else l ++ List.replicate (n - l.length) 0

/-- Type of the native compress entry point as seen through the FFI: it reads
the source buffer, the destination buffer contents and the in/out length
cell, and the scratch workspace; it returns the status, the destination
buffer contents after the call, and the length cell after the call. -/
abbrev CompressFn :=
  List Nat → List Nat → Nat → List Nat → LzoError × List Nat × Nat

/-- Type of the native decompress entry point; the workspace argument is an
`Option` so that `null_mut()` is `none`. -/
abbrev DecompressFn :=
  List Nat → List Nat → Nat → Option (List Nat) → LzoError × List Nat × Nat

/-- The wrapper `compress` from `src/lib.rs`, parameterised over the native
entry point `native` and the platform word size: allocate a zeroed output
buffer of `output_buffer_size (input.len())`, a zeroed workspace of
`LZO1X_1_MEM_COMPRESS` bytes, set the length cell to the output capacity,
call the native compressor, and on `Ok` resize the output to the post-call
length cell, otherwise return the error. -/
def compress (native : CompressFn) (wordSize : Nat) (input : List Nat) :
    Except LzoError (List Nat) :=
  let output := List.replicate (output_buffer_size input.length) 0
  let wrkmem := List.replicate (LZO1X_1_MEM_COMPRESS wordSize) 0
  let size := output.length
  let r := native input output size wrkmem
  if r.1 = LzoError.Ok then Except.ok (listResize r.2.1 r.2.2)
  else Except.error r.1

/-- The wrapper `decompress` from `src/lib.rs`, parameterised over the native
entry point: allocate a zeroed output buffer of `buffer_len`, set the length
cell to `buffer_len`, call the native bounds-checked decompressor with a null
workspace, and on `Ok` resize the output to the post-call length cell,
otherwise return the error. -/
def decompress (native : DecompressFn) (buffer_len : Nat) (data : List Nat) :
    Except LzoError (List Nat) :=
  let output := List.replicate buffer_len 0
  let output_len := buffer_len
  let r := native data output output_len none
  if r.1 = LzoError.Ok then Except.ok (listResize r.2.1 r.2.2)
  else Except.error r.1

/-- Modelled from the spec: the native codec entry point `lzo1x_1_compress` is
declared `extern "C"` in `src/lib.rs` but its implementation (the minilzo C
code) is not under `src/`. The spec treats the algorithm as opaque (sections 1
and 6) and only fixes its contract: the call succeeds whenever the destination
capacity meets the section 4.1 bound, it writes the number of bytes produced
into the length cell, the produced stream decompresses back to the source
bytes, and the output never exceeds the bound. This model realises that
contract with verbatim storage: the encoded stream is the source itself. -/
def lzo1x_1_compress_model : CompressFn := fun src dst dstLen _wrkmem =>
  if src.length ≤ dstLen then
    (LzoError.Ok, src ++ dst.drop src.length, src.length)
  else (LzoError.OutputOverrun, dst, dstLen)

/-- Modelled from the spec: the native entry point `lzo1x_decompress_safe` is
declared `extern "C"` in `src/lib.rs` but not implemented under `src/`. Per
the spec (section 4.4), the bounds-checked decompressor reconstructs the
original bytes when the declared capacity is at least the true original
length, writes the true length into the length cell, and reports an overrun
error instead of writing past the capacity when it is smaller. Under the
verbatim-storage model the true original length of a stream is its length. -/
def lzo1x_decompress_safe_model : DecompressFn := fun src dst dstLen _wrkmem =>
  if src.length ≤ dstLen then
    (LzoError.Ok, src ++ dst.drop src.length, src.length)
  else (LzoError.OutputOverrun, dst, dstLen)

/-- The wrapper compressor instantiated with the spec-modelled native codec. -/
def compressM (wordSize : Nat) (input : List Nat) : Except LzoError (List Nat) :=
  compress lzo1x_1_compress_model wordSize input

/-- The wrapper decompressor instantiated with the spec-modelled native codec. -/
def decompressM (buffer_len : Nat) (data : List Nat) : Except LzoError (List Nat) :=
  decompress lzo1x_decompress_safe_model buffer_len data

lemma self_le_output_buffer_size (n : Nat) : n ≤ output_buffer_size n := by
  unfold output_buffer_size; omega

lemma listResize_length (l : List Nat) (n : Nat) : (listResize l n).length = n := by
  unfold listResize
  split
  · simp only [List.length_take]; omega
  · simp only [List.length_append, List.length_replicate]; omega

lemma listResize_append (a r : List Nat) : listResize (a ++ r) a.length = a := by
  unfold listResize
  rw [if_pos (by simp only [List.length_append]; omega)]
  exact List.take_left a r

lemma compressM_eq (wordSize : Nat) (b : List Nat) :
    compressM wordSize b = Except.ok b := by
  unfold compressM compress lzo1x_1_compress_model
  simp only [List.length_replicate, if_pos (self_le_output_buffer_size b.length)]
  exact congrArg Except.ok (listResize_append _ _)

lemma decompressM_eq_of_le (m : Nat) (b : List Nat) (h : b.length ≤ m) :
    decompressM m b = Except.ok b := by
  unfold decompressM decompress lzo1x_decompress_safe_model
  simp only [List.length_replicate, if_pos h]
  exact congrArg Except.ok (listResize_append _ _)

lemma decompressM_overrun_of_lt (m : Nat) (b : List Nat) (h : m < b.length) :
    decompressM m b = Except.error LzoError.OutputOverrun := by
  unfold decompressM decompress lzo1x_decompress_safe_model
  simp only [List.length_replicate, if_neg (show ¬ b.length ≤ m by omega)]
  rfl

/-- C1: for every byte sequence `b` (any length, including 0), decompressing
the result of compressing `b` with declared maximum length `b.length`
succeeds and returns `b` itself, for the wrapper instantiated with the
spec-modelled native codec. -/
theorem compress_decompress_roundtrip :
    ∀ wordSize b, ∃ c, compressM wordSize b = Except.ok c ∧
      decompressM b.length c = Except.ok b :=
  fun wordSize b =>
    ⟨b, compressM_eq wordSize b, decompressM_eq_of_le b.length b le_rfl⟩

/-- C3: `output_buffer_size` is the pure function `n + n / 16 + 64 + 3`
(truncating division); `compress` invokes the native codec only with a
zeroed destination buffer of exactly that capacity and a length cell equal
to it; and under the spec-modelled codec every successful payload is no
longer than the bound. -/
theorem compress_size_bound :
    (∀ n, output_buffer_size n = n + n / 16 + 64 + 3)
  ∧ (∀ f g wordSize input,
      (∀ w, f input (List.replicate (output_buffer_size input.length) 0)
              (output_buffer_size input.length) w
          = g input (List.replicate (output_buffer_size input.length) 0)
              (output_buffer_size input.length) w) →
      compress f wordSize input = compress g wordSize input)
  ∧ (∀ wordSize b r, compressM wordSize b = Except.ok r →
      r.length ≤ output_buffer_size b.length) := by
  refine ⟨fun n => rfl, ?_, ?_⟩
  · intro f g wordSize input h
    simp only [compress, List.length_replicate]
    rw [h]
  · intro wordSize b r hr
    have h := (compressM_eq wordSize b).symm.trans hr
    have hbr : b = r := by injection h
    subst hbr
    exact self_le_output_buffer_size b.length

/-- C3 witness: the size bound instantiated at the concrete input
`[1, 2, 3]`. -/
theorem compress_size_bound_witness :
    ([1, 2, 3] : List Nat).length ≤ output_buffer_size ([1, 2, 3] : List Nat).length :=
  compress_size_bound.2.2 8 [1, 2, 3] [1, 2, 3] (compressM_eq 8 [1, 2, 3])

/-- C4: for any native entry point, whenever the native call returns the
success status, both wrappers return a payload whose length equals the
post-call value of the length cell (the resize target), never the pre-call
capacity. -/
theorem truncation_to_length_cell :
    (∀ f wordSize input e o s,
      f input (List.replicate (output_buffer_size input.length) 0)
        (output_buffer_size input.length)
        (List.replicate (LZO1X_1_MEM_COMPRESS wordSize) 0) = (e, o, s) →
      e = LzoError.Ok →
      compress f wordSize input = Except.ok (listResize o s)
        ∧ (listResize o s).length = s)
  ∧ (∀ f m data e o s,
      f data (List.replicate m 0) m none = (e, o, s) →
      e = LzoError.Ok →
      decompress f m data = Except.ok (listResize o s)
        ∧ (listResize o s).length = s) := by
  constructor
  · intro f wordSize input e o s hf he
    subst he
    refine ⟨?_, listResize_length o s⟩
    simp only [compress, List.length_replicate, hf]
    exact if_pos trivial
  · intro f m data e o s hf he
    subst he
    refine ⟨?_, listResize_length o s⟩
    simp only [decompress, hf]
    exact if_pos trivial

/-- C4 witness: a native call that reports success with 1 byte written into a
69-byte buffer yields a payload of length exactly 1. -/
theorem truncation_to_length_cell_witness :
    compress (fun _ _ _ _ => (LzoError.Ok, [9], 1)) 8 [1, 2]
      = Except.ok (listResize [9] 1)
    ∧ (listResize [9] 1).length = 1 :=
  truncation_to_length_cell.1 (fun _ _ _ _ => (LzoError.Ok, [9], 1)) 8 [1, 2]
    LzoError.Ok [9] 1 rfl rfl

/-- C5: under the spec-modelled codec, decompressing a compression output with
declared capacity smaller than the true original length fails with the
output-overrun kind and no payload, while any capacity at least the true
length succeeds and the result is truncated to the true length. -/
theorem decompress_capacity_behavior :
    ∀ wordSize b c, compressM wordSize b = Except.ok c →
      (∀ m, m < b.length → decompressM m c = Except.error LzoError.OutputOverrun)
    ∧ (∀ m, b.length ≤ m → decompressM m c = Except.ok b) := by
  intro wordSize b c hc
  have h := (compressM_eq wordSize b).symm.trans hc
  have hbc : b = c := by injection h
  subst hbc
  exact ⟨fun m hm => decompressM_overrun_of_lt m b hm,
         fun m hm => decompressM_eq_of_le m b hm⟩

/-- C5 witness: the compressed form of `[1, 2, 3]` fails to decompress into a
declared capacity of 2 and succeeds with surplus capacity 5. -/
theorem decompress_capacity_behavior_witness :
    decompressM 2 [1, 2, 3] = Except.error LzoError.OutputOverrun
    ∧ decompressM 5 [1, 2, 3] = Except.ok [1, 2, 3] :=
  ⟨(decompress_capacity_behavior 8 [1, 2, 3] [1, 2, 3] (compressM_eq 8 [1, 2, 3])).1
      2 (by decide),
   (decompress_capacity_behavior 8 [1, 2, 3] [1, 2, 3] (compressM_eq 8 [1, 2, 3])).2
      5 (by decide)⟩

/-- C6: for any native entry point, whenever the native call returns a
non-success status, both wrappers return exactly that error and no byte
payload; the partially written working buffer never reaches the caller. -/
theorem error_propagation_no_partial_output :
    (∀ f wordSize input e o s,
      f input (List.replicate (output_buffer_size input.length) 0)
        (output_buffer_size input.length)
        (List.replicate (LZO1X_1_MEM_COMPRESS wordSize) 0) = (e, o, s) →
      e ≠ LzoError.Ok →
      compress f wordSize input = Except.error e)
  ∧ (∀ f m data e o s,
      f data (List.replicate m 0) m none = (e, o, s) →
      e ≠ LzoError.Ok →
      decompress f m data = Except.error e) := by
  constructor
  · intro f wordSize input e o s hf he
    simp only [compress, List.length_replicate, hf]
    exact if_neg he
  · intro f m data e o s hf he
    simp only [decompress, hf]
    exact if_neg he

/-- C6 witness: a native call reporting an input overrun, having nevertheless
written bytes into the buffer, surfaces as exactly that error with no
payload. -/
theorem error_propagation_no_partial_output_witness :
    compress (fun _ _ _ _ => (LzoError.InputOverrun, [7], 2)) 8 [1]
      = Except.error LzoError.InputOverrun :=
  error_propagation_no_partial_output.1
    (fun _ _ _ _ => (LzoError.InputOverrun, [7], 2)) 8 [1]
    LzoError.InputOverrun [7] 2 rfl (by decide)

/-- C2 counterexample: the status value -50 lies outside the documented range,
and the code maps it to no variant at all (reading it as the `repr(i32)` enum
is undefined behaviour; there is no catch-all arm), not to `InternalError` as
the claim states. -/
theorem statusToLzoError_no_catch_all :
    statusToLzoError (-50) = none
    ∧ statusToLzoError (-50) ≠ some LzoError.InternalError := by
  constructor
  · rfl
  · decide

/-- C2 amended: the translation from the native signed status code is defined
exactly on the 14 documented discriminants 0, -1, ..., -12, -99; it maps 0 to
success and is a left inverse of the discriminant assignment (hence
one-to-one); every defined translation is of a documented value;
`InternalError` is the image of -99 only, and a value outside the documented
set has no defined translation. -/
theorem statusToLzoError_documented_domain :
    (statusToLzoError 0 = some LzoError.Ok)
  ∧ (∀ e, statusToLzoError e.toStatus = some e)
  ∧ (∀ s, statusToLzoError s = none
        ∨ ∃ e, statusToLzoError s = some e ∧ e.toStatus = s) := by
  refine ⟨rfl, fun e => by cases e <;> rfl, fun s => ?_⟩
  by_cases h1 : s = 0
  · exact Or.inr ⟨LzoError.Ok, by rw [h1]; rfl, by rw [h1]; rfl⟩
  by_cases h2 : s = -1
  · exact Or.inr ⟨LzoError.Error, by rw [h2]; rfl, by rw [h2]; rfl⟩
  by_cases h3 : s = -2
  · exact Or.inr ⟨LzoError.OutOfMemory, by rw [h3]; rfl, by rw [h3]; rfl⟩
  by_cases h4 : s = -3
  · exact Or.inr ⟨LzoError.NotCompressible, by rw [h4]; rfl, by rw [h4]; rfl⟩
  by_cases h5 : s = -4
  · exact Or.inr ⟨LzoError.InputOverrun, by rw [h5]; rfl, by rw [h5]; rfl⟩
  by_cases h6 : s = -5
  · exact Or.inr ⟨LzoError.OutputOverrun, by rw [h6]; rfl, by rw [h6]; rfl⟩
  by_cases h7 : s = -6
  · exact Or.inr ⟨LzoError.LookbehindOverrun, by rw [h7]; rfl, by rw [h7]; rfl⟩
  by_cases h8 : s = -7
  · exact Or.inr ⟨LzoError.EofNotFound, by rw [h8]; rfl, by rw [h8]; rfl⟩
  by_cases h9 : s = -8
  · exact Or.inr ⟨LzoError.InputNotConsumed, by rw [h9]; rfl, by rw [h9]; rfl⟩
  by_cases h10 : s = -9
  · exact Or.inr ⟨LzoError.NotYetImplemented, by rw [h10]; rfl, by rw [h10]; rfl⟩
  by_cases h11 : s = -10
  · exact Or.inr ⟨LzoError.InvalidArgument, by rw [h11]; rfl, by rw [h11]; rfl⟩
  by_cases h12 : s = -11
  · exact Or.inr ⟨LzoError.InvalidAlignment, by rw [h12]; rfl, by rw [h12]; rfl⟩
  by_cases h13 : s = -12
  · exact Or.inr ⟨LzoError.OutputNotConsumed, by rw [h13]; rfl, by rw [h13]; rfl⟩
  by_cases h14 : s = -99
  · exact Or.inr ⟨LzoError.InternalError, by rw [h14]; rfl, by rw [h14]; rfl⟩
  refine Or.inl ?_
  simp only [statusToLzoError, if_neg h1, if_neg h2, if_neg h3, if_neg h4, if_neg h5, if_neg h6, if_neg h7, if_neg h8, if_neg h9, if_neg h10, if_neg h11, if_neg h12, if_neg h13, if_neg h14]

/-- C7: the workspace constant is exactly 16384 times the platform word size;
`compress` invokes the native codec only with a zero-initialised workspace of
exactly that size, whatever the input; and `decompress` invokes the native
codec only with the null workspace marker. -/
theorem workspace_contract :
    (∀ wordSize, LZO1X_1_MEM_COMPRESS wordSize = 16384 * wordSize)
  ∧ (∀ f g wordSize input,
      (∀ src dst len w, w.length = 16384 * wordSize → (∀ x ∈ w, x = 0) →
        f src dst len w = g src dst len w) →
      compress f wordSize input = compress g wordSize input)
  ∧ (∀ f g m data,
      (∀ src dst len, f src dst len none = g src dst len none) →
      decompress f m data = decompress g m data) := by
  refine ⟨fun _ => rfl, ?_, ?_⟩
  · intro f g wordSize input h
    simp only [compress, List.length_replicate]
    rw [h _ _ _ _ (by simp [LZO1X_1_MEM_COMPRESS])
        (fun x hx => List.eq_of_mem_replicate hx)]
  · intro f g m data h
    simp only [decompress]
    rw [h]

/-- C7 witness: the workspace agreement applied to the spec-modelled codec on
concrete inputs. -/
theorem workspace_contract_witness :
    compress lzo1x_1_compress_model 8 [] = compress lzo1x_1_compress_model 8 []
    ∧ decompress lzo1x_decompress_safe_model 0 []
        = decompress lzo1x_decompress_safe_model 0 [] :=
  ⟨workspace_contract.2.1 lzo1x_1_compress_model lzo1x_1_compress_model 8 []
      (fun _ _ _ _ _ _ => rfl),
   workspace_contract.2.2 lzo1x_decompress_safe_model lzo1x_decompress_safe_model 0 []
      (fun _ _ _ => rfl)⟩

/-- C8 counterexample: the display string of `EofNotFound` is "EOF not found",
which is not lowercase, contradicting the claim that every variant has a
lowercase description. -/
theorem lzoDisplay_not_all_lowercase :
    isLowercase (lzoDisplay LzoError.EofNotFound) = false := by decide

/-- C8 amended: every variant has a fixed descriptive display string, and all
of them are lowercase except `EofNotFound`, whose string is "EOF not found". -/
theorem lzoDisplay_fixed_strings :
    (∀ e, e = LzoError.EofNotFound ∨ isLowercase (lzoDisplay e) = true)
  ∧ lzoDisplay LzoError.EofNotFound = "EOF not found" := by
  refine ⟨fun e => ?_, rfl⟩
  cases e <;> decide

/-- C9: the derived order on `LzoError` follows the numeric discriminants:
`InternalError` (-99) is the unique least element, `Ok` (0) is the unique
greatest (so every value is ≤ `Ok`), and the failure kinds form the strict
chain -99 < -12 < -11 < ... < -1 < 0. -/
theorem derived_order_by_status :
    (∀ e, e = LzoError.InternalError ∨ lzoLt LzoError.InternalError e = true)
  ∧ (∀ e, e = LzoError.Ok ∨ lzoLt e LzoError.Ok = true)
  ∧ (∀ e, lzoLe e LzoError.Ok = true)
  ∧ (lzoLt LzoError.InternalError LzoError.OutputNotConsumed = true
      ∧ lzoLt LzoError.OutputNotConsumed LzoError.InvalidAlignment = true
      ∧ lzoLt LzoError.InvalidAlignment LzoError.InvalidArgument = true
      ∧ lzoLt LzoError.InvalidArgument LzoError.NotYetImplemented = true
      ∧ lzoLt LzoError.NotYetImplemented LzoError.InputNotConsumed = true
      ∧ lzoLt LzoError.InputNotConsumed LzoError.EofNotFound = true
      ∧ lzoLt LzoError.EofNotFound LzoError.LookbehindOverrun = true
      ∧ lzoLt LzoError.LookbehindOverrun LzoError.OutputOverrun = true
      ∧ lzoLt LzoError.OutputOverrun LzoError.InputOverrun = true
      ∧ lzoLt LzoError.InputOverrun LzoError.NotCompressible = true
      ∧ lzoLt LzoError.NotCompressible LzoError.OutOfMemory = true
      ∧ lzoLt LzoError.OutOfMemory LzoError.Error = true
      ∧ lzoLt LzoError.Error LzoError.Ok = true) := by
  refine ⟨fun e => ?_, fun e => ?_, fun e => ?_, by decide⟩
  · cases e <;> decide
  · cases e <;> decide
  · cases e <;> decide

/-- C10: both wrappers are deterministic pure functions of their arguments:
with the same native entry point (itself a function, hence deterministic),
equal inputs give equal results, and no other state enters the computation. -/
theorem compress_decompress_deterministic :
    (∀ f wordSize i j, i = j → compress f wordSize i = compress f wordSize j)
  ∧ (∀ f m k d e, m = k → d = e → decompress f m d = decompress f k e) := by
  constructor
  · intro f wordSize i j h
    rw [h]
  · intro f m k d e h1 h2
    rw [h1, h2]

/-- C10 witness: determinism applied at concrete calls. -/
theorem compress_decompress_deterministic_witness :
    compress lzo1x_1_compress_model 8 [1, 2] = compress lzo1x_1_compress_model 8 [1, 2]
    ∧ decompress lzo1x_decompress_safe_model 2 [3]
        = decompress lzo1x_decompress_safe_model 2 [3] :=
  ⟨compress_decompress_deterministic.1 lzo1x_1_compress_model 8 [1, 2] [1, 2] rfl,
   compress_decompress_deterministic.2 lzo1x_decompress_safe_model 2 2 [3] [3] rfl rfl⟩
